import Mathlib

/-!
Verification of the DES (Brown's Double Exponential Smoothing) core of the
`Modeling_data_science` repository.

The numerical core lives in `modeling_page` of `DEPLOY_UAS/deploy2.py` and
`modeling1/deploy1.py`; the two files share the identical smoothing,
coefficient, in-sample forecast and metric computation, and differ only in
the future-period policy (continuation from the last observed year in
deploy2.py vs. a fixed start year 2022 in deploy1.py).

The embedding works over `ℚ` as the exact idealisation of Python floats.
Series values are a `List ℚ`; the float `nan` placed at index 0 of the
in-sample forecast is modelled by `Option ℚ` with `none` for the
non-numeric entry; the non-finite result numpy produces when a MAPE
denominator is zero is likewise modelled by `none`.
-/

namespace DES

/-- One iteration of the source loop body
`S1.append(alpha * y[t] + (1 - alpha) * S1[t-1])`;
`S2.append(alpha * S1[t] + (1 - alpha) * S2[t-1])`
(deploy2.py lines 72-74, deploy1.py lines 77-79).  `st` is the pair of the
lists built so far; the second append reads `S1[t]`, the element the first
append has just added. -/
def desStep (alpha : ℚ) (y : List ℚ) (st : List ℚ × List ℚ) (t : ℕ) :
    List ℚ × List ℚ :=
  let s1 := st.1 ++ [alpha * y.getD t 0 + (1 - alpha) * st.1.getD (t - 1) 0]
  let s2 := st.2 ++ [alpha * s1.getD t 0 + (1 - alpha) * st.2.getD (t - 1) 0]
  (s1, s2)

/-- The state of the loop `for t in range(1, len(y))` after the iterations
t = 1 .. k, starting from the seeds `S1 = [y[0]]`, `S2 = [y[0]]`
(deploy2.py lines 69-74, deploy1.py lines 74-79). -/
def desIter (alpha : ℚ) (y : List ℚ) : ℕ → List ℚ × List ℚ
  | 0 => ([y.getD 0 0], [y.getD 0 0])
  | k + 1 => desStep alpha y (desIter alpha y k) (k + 1)

/-- The smoothed lists `(S1, S2)` after the full loop has run, i.e. after
iterations t = 1 .. len(y) - 1. -/
def desSmooth (alpha : ℚ) (y : List ℚ) : List ℚ × List ℚ :=
  desIter alpha y (y.length - 1)

/-- `a = [2*S1[i] - S2[i] for i in range(len(y))]`
(deploy2.py line 76, deploy1.py line 81). -/
def aList (alpha : ℚ) (y : List ℚ) : List ℚ :=
  (List.range y.length).map fun i =>
    2 * (desSmooth alpha y).1.getD i 0 - (desSmooth alpha y).2.getD i 0

/-- `b = [(alpha/(1-alpha)) * (S1[i] - S2[i]) for i in range(len(y))]`
(deploy2.py line 77, deploy1.py line 82). -/
def bList (alpha : ℚ) (y : List ℚ) : List ℚ :=
  (List.range y.length).map fun i =>
    (alpha / (1 - alpha)) *
      ((desSmooth alpha y).1.getD i 0 - (desSmooth alpha y).2.getD i 0)

/-- `forecast = [np.nan]` followed by
`for i in range(1, len(y)): forecast.append(a[i-1] + b[i-1])`
(deploy2.py lines 79-81, deploy1.py lines 85-87); the float `nan` at
index 0 is modelled by `none`. -/
def forecastList (alpha : ℚ) (y : List ℚ) : List (Option ℚ) :=
  none :: (List.range' 1 (y.length - 1)).map fun i =>
    some ((aList alpha y).getD (i - 1) 0 + (bList alpha y).getD (i - 1) 0)

/-- `pred = np.array(forecast[1:])` (deploy2.py line 85, deploy1.py
line 93): every dropped-to entry is numeric, extracted from the option. -/
def predList (alpha : ℚ) (y : List ℚ) : List ℚ :=
  ((forecastList alpha y).drop 1).map fun o => o.getD 0

/-- The elementwise residuals `actual - pred` with `actual = y[1:]`
(deploy2.py lines 84-85, deploy1.py lines 92-93). -/
def errList (alpha : ℚ) (y : List ℚ) : List ℚ :=
  List.zipWith (fun act pre => act - pre) (y.drop 1) (predList alpha y)

/-- `mae = np.mean(np.abs(actual - pred))` (deploy2.py line 87,
deploy1.py line 95). -/
def mae (alpha : ℚ) (y : List ℚ) : ℚ :=
  ((errList alpha y).map fun e => |e|).sum / (errList alpha y).length

/-- `mse = np.mean((actual - pred)**2)` (deploy2.py line 88,
deploy1.py line 96). -/
def mse (alpha : ℚ) (y : List ℚ) : ℚ :=
  ((errList alpha y).map fun e => e ^ 2).sum / (errList alpha y).length

/-- The elementwise terms `np.abs((actual - pred) / actual)` of the MAPE
expression (deploy2.py line 90, deploy1.py line 98).  numpy float division
by an exactly-zero `actual` returns a non-finite value (inf or nan) with
only a runtime warning; `none` models that non-finite outcome. -/
def mapeTerms (alpha : ℚ) (y : List ℚ) : List (Option ℚ) :=
  List.zipWith
    (fun act pre => if act = 0 then none else some |(act - pre) / act|)
    (y.drop 1) (predList alpha y)

/-- `mape = np.mean(np.abs((actual - pred) / actual)) * 100`
(deploy2.py line 90, deploy1.py line 98): the mean is numeric exactly when
every term is; otherwise the numpy result is non-finite, modelled `none`. -/
def mape (alpha : ℚ) (y : List ℚ) : Option ℚ :=
  if (mapeTerms alpha y).all fun o => o.isSome then
    some ((((mapeTerms alpha y).map fun o => o.getD 0).sum /
      (mapeTerms alpha y).length) * 100)
  else none

/-- `future_forecast = [a[-1] + b[-1]*m for m in range(1, n_forecast + 1)]`
(deploy1.py lines 108-111 with `n_forecast = 5`; deploy2.py line 94 inlines
the same comprehension with the horizon literal 5).  `a[-1]` and `b[-1]`
are the last entries, at index `len(y) - 1`. -/
def futureForecast (alpha : ℚ) (y : List ℚ) (hor : ℕ) : List ℚ :=
  (List.range' 1 hor).map fun m : ℕ =>
    (aList alpha y).getD (y.length - 1) 0 +
      (bList alpha y).getD (y.length - 1) 0 * (m : ℚ)

/-- Continuation mode of deploy2.py line 93:
`future_years = np.arange(tahun[-1] + 1, tahun[-1] + 6)`, i.e. the periods
`last + m` for m = 1 .. horizon (the source inlines horizon = 5). -/
def futureYearsCont (tahun : List ℤ) (hor : ℕ) : List ℤ :=
  (List.range' 1 hor).map fun m : ℕ =>
    tahun.getD (tahun.length - 1) 0 + (m : ℤ)

/-- Fixed-start mode of deploy1.py lines 103-106:
`future_years = np.arange(start_year, start_year + n_forecast)`, i.e. the
periods `start + k` for k = 0 .. horizon - 1 (the source sets
`start_year = 2022`, `n_forecast = 5`). -/
def futureYearsFixed (start : ℤ) (hor : ℕ) : List ℤ :=
  (List.range hor).map fun k : ℕ => start + (k : ℤ)

/-- Closed form of the first-order smoothing recurrence: the value the loop
stores in `S1[t]`. -/
def s1Rec (alpha : ℚ) (y : List ℚ) : ℕ → ℚ
  | 0 => y.getD 0 0
  | t + 1 => alpha * y.getD (t + 1) 0 + (1 - alpha) * s1Rec alpha y t

/-- Closed form of the second-order smoothing recurrence: the value the
loop stores in `S2[t]`. -/
def s2Rec (alpha : ℚ) (y : List ℚ) : ℕ → ℚ
  | 0 => y.getD 0 0
  | t + 1 => alpha * s1Rec alpha y (t + 1) + (1 - alpha) * s2Rec alpha y t

lemma getD_map_range {α : Type} (f : ℕ → α) (d : α) (n j : ℕ) (h : j < n) :
    ((List.range n).map f).getD j d = f j := by
  rw [List.getD_eq_getElem _ _ (by simpa using h)]
  simp

lemma getD_map_range' {α : Type} (f : ℕ → α) (d : α) (s n j : ℕ)
    (h : j < n) :
    ((List.range' s n).map f).getD j d = f (s + j) := by
  rw [List.getD_eq_getElem _ _ (by simpa using h)]
  simp

/-- Unfolding equation for `desStep` with the `let`s substituted. -/
lemma desStep_def (alpha : ℚ) (y : List ℚ) (st : List ℚ × List ℚ) (t : ℕ) :
    desStep alpha y st t =
      (st.1 ++ [alpha * y.getD t 0 + (1 - alpha) * st.1.getD (t - 1) 0],
       st.2 ++
         [alpha *
             (st.1 ++
               [alpha * y.getD t 0 +
                 (1 - alpha) * st.1.getD (t - 1) 0]).getD t 0 +
           (1 - alpha) * st.2.getD (t - 1) 0]) := rfl

/-- After k iterations the two lists hold exactly the recurrence values at
indices 0 .. k. -/
lemma desIter_eq (alpha : ℚ) (y : List ℚ) (k : ℕ) :
    desIter alpha y k =
      ((List.range (k + 1)).map (s1Rec alpha y),
       (List.range (k + 1)).map (s2Rec alpha y)) := by
  induction k with
  | zero =>
      simp [desIter, s1Rec, s2Rec, List.range_succ]
  | succ k ih =>
      have hk : k < k + 1 := Nat.lt_succ_self k
      rw [desIter, ih, desStep_def]
      dsimp only
      rw [Nat.add_sub_cancel, getD_map_range _ _ _ _ hk,
        getD_map_range _ _ _ _ hk]
      have hA : alpha * y.getD (k + 1) 0 + (1 - alpha) * s1Rec alpha y k =
          s1Rec alpha y (k + 1) := rfl
      rw [hA]
      have hs1 : (List.range (k + 1)).map (s1Rec alpha y) ++
          [s1Rec alpha y (k + 1)] =
          (List.range (k + 1 + 1)).map (s1Rec alpha y) := by
        simp [List.range_succ]
      rw [hs1, getD_map_range _ _ _ _ (Nat.lt_succ_self (k + 1))]
      have hB : alpha * s1Rec alpha y (k + 1) +
          (1 - alpha) * s2Rec alpha y k = s2Rec alpha y (k + 1) := rfl
      rw [hB]
      have hs2 : (List.range (k + 1)).map (s2Rec alpha y) ++
          [s2Rec alpha y (k + 1)] =
          (List.range (k + 1 + 1)).map (s2Rec alpha y) := by
        simp [List.range_succ]
      rw [hs2]

lemma desSmooth_fst_getD (alpha : ℚ) (y : List ℚ) (t : ℕ)
    (h : t ≤ y.length - 1) :
    (desSmooth alpha y).1.getD t 0 = s1Rec alpha y t := by
  rw [desSmooth, desIter_eq]
  exact getD_map_range _ _ _ _ (Nat.lt_succ_of_le h)

lemma desSmooth_snd_getD (alpha : ℚ) (y : List ℚ) (t : ℕ)
    (h : t ≤ y.length - 1) :
    (desSmooth alpha y).2.getD t 0 = s2Rec alpha y t := by
  rw [desSmooth, desIter_eq]
  exact getD_map_range _ _ _ _ (Nat.lt_succ_of_le h)

lemma aList_getD (alpha : ℚ) (y : List ℚ) (i : ℕ) (h : i < y.length) :
    (aList alpha y).getD i 0 =
      2 * (desSmooth alpha y).1.getD i 0 - (desSmooth alpha y).2.getD i 0 := by
  rw [aList]
  exact getD_map_range _ _ _ _ h

lemma bList_getD (alpha : ℚ) (y : List ℚ) (i : ℕ) (h : i < y.length) :
    (bList alpha y).getD i 0 =
      (alpha / (1 - alpha)) *
        ((desSmooth alpha y).1.getD i 0 - (desSmooth alpha y).2.getD i 0) := by
  rw [bList]
  exact getD_map_range _ _ _ _ h

lemma forecastList_getD (alpha : ℚ) (y : List ℚ) (i : ℕ) (h1 : 1 ≤ i)
    (h2 : i ≤ y.length - 1) :
    (forecastList alpha y).getD i none =
      some ((aList alpha y).getD (i - 1) 0 + (bList alpha y).getD (i - 1) 0) := by
  obtain ⟨j, rfl⟩ : ∃ j, i = j + 1 :=
    ⟨i - 1, (Nat.succ_pred_eq_of_pos h1).symm⟩
  rw [forecastList, List.getD_cons_succ,
    getD_map_range' _ _ _ _ _ (by omega : j < y.length - 1)]
  have : 1 + j - 1 = j + 1 - 1 := by omega
  rw [this]

lemma s1Rec_one (alpha : ℚ) (y : List ℚ) :
    s1Rec alpha y 1 = alpha * y.getD 1 0 + (1 - alpha) * y.getD 0 0 := rfl

/-- C1: for every series of length n ≥ 2 and alpha ∈ (0,1), the lists the
loop builds satisfy S1[t] = alpha·y[t] + (1-alpha)·S1[t-1] and
S2[t] = alpha·S1[t] + (1-alpha)·S2[t-1] for all t = 1 .. n-1, and the
coefficients satisfy a[i] = 2·S1[i] - S2[i] and
b[i] = (alpha/(1-alpha))·(S1[i] - S2[i]) for all i = 0 .. n-1. -/
theorem brown_recurrence (alpha : ℚ) (y : List ℚ) (hn : 2 ≤ y.length)
    (h0 : 0 < alpha) (h1 : alpha < 1) :
    (∀ t, 1 ≤ t → t ≤ y.length - 1 →
      (desSmooth alpha y).1.getD t 0 =
        alpha * y.getD t 0 +
          (1 - alpha) * (desSmooth alpha y).1.getD (t - 1) 0 ∧
      (desSmooth alpha y).2.getD t 0 =
        alpha * (desSmooth alpha y).1.getD t 0 +
          (1 - alpha) * (desSmooth alpha y).2.getD (t - 1) 0) ∧
    ∀ i, i ≤ y.length - 1 →
      (aList alpha y).getD i 0 =
        2 * (desSmooth alpha y).1.getD i 0 - (desSmooth alpha y).2.getD i 0 ∧
      (bList alpha y).getD i 0 =
        (alpha / (1 - alpha)) *
          ((desSmooth alpha y).1.getD i 0 - (desSmooth alpha y).2.getD i 0) := by
  constructor
  · intro t ht1 ht2
    obtain ⟨j, rfl⟩ : ∃ j, t = j + 1 :=
      ⟨t - 1, (Nat.succ_pred_eq_of_pos ht1).symm⟩
    have hj : j ≤ y.length - 1 := by omega
    rw [Nat.add_sub_cancel, desSmooth_fst_getD _ _ _ ht2,
      desSmooth_snd_getD _ _ _ ht2, desSmooth_fst_getD _ _ _ hj,
      desSmooth_snd_getD _ _ _ hj]
    exact ⟨rfl, rfl⟩
  · intro i hi
    have hi' : i < y.length := by omega
    exact ⟨aList_getD _ _ _ hi', bList_getD _ _ _ hi'⟩

/-- Witness for C1 at the worked series and alpha = 0.8, t = 1. -/
theorem brown_recurrence_witness :
    (desSmooth (4/5) [3/5, 31/50, 59/100, 63/100]).1.getD 1 0 =
      4/5 * ([3/5, 31/50, 59/100, 63/100] : List ℚ).getD 1 0 +
        (1 - 4/5) *
          (desSmooth (4/5) [3/5, 31/50, 59/100, 63/100]).1.getD (1 - 1) 0 :=
  ((brown_recurrence (4/5) [3/5, 31/50, 59/100, 63/100] (by simp)
      (by norm_num) (by norm_num)).1 1 (by norm_num) (by simp)).1

/-- C2: for every non-empty series and every alpha, both smoothing passes
are seeded with the first observation: S1[0] = y[0] and S2[0] = y[0]. -/
theorem seeding (alpha : ℚ) (y : List ℚ) (hy : y ≠ []) (h0 : 0 < alpha)
    (h1 : alpha < 1) :
    (desSmooth alpha y).1.getD 0 0 = y.getD 0 0 ∧
    (desSmooth alpha y).2.getD 0 0 = y.getD 0 0 := by
  have h : (0 : ℕ) ≤ y.length - 1 := Nat.zero_le _
  rw [desSmooth_fst_getD _ _ _ h, desSmooth_snd_getD _ _ _ h]
  exact ⟨rfl, rfl⟩

/-- Witness for C2 at a concrete series and alpha = 0.5. -/
theorem seeding_witness :
    (desSmooth (1/2) [3/5, 31/50]).1.getD 0 0 =
      ([3/5, 31/50] : List ℚ).getD 0 0 ∧
    (desSmooth (1/2) [3/5, 31/50]).2.getD 0 0 =
      ([3/5, 31/50] : List ℚ).getD 0 0 :=
  seeding (1/2) [3/5, 31/50] (by simp) (by norm_num) (by norm_num)

/-- C3: for every series of length n ≥ 2 and alpha ∈ (0,1), the in-sample
forecast list has length n, its entry at index 0 is the non-numeric marker
(`none`, the embedding of the float nan), and for every i = 1 .. n-1 its
entry is the numeric value a[i-1] + b[i-1]. -/
theorem in_sample_forecast (alpha : ℚ) (y : List ℚ) (hn : 2 ≤ y.length)
    (h0 : 0 < alpha) (h1 : alpha < 1) :
    (forecastList alpha y).length = y.length ∧
    (forecastList alpha y).getD 0 none = none ∧
    ∀ i, 1 ≤ i → i ≤ y.length - 1 →
      (forecastList alpha y).getD i none =
        some ((aList alpha y).getD (i - 1) 0 +
          (bList alpha y).getD (i - 1) 0) := by
  refine ⟨?_, rfl, fun i hi1 hi2 => forecastList_getD alpha y i hi1 hi2⟩
  simp [forecastList]
  omega

/-- Witness for C3 at a concrete series, alpha = 0.5, i = 1. -/
theorem in_sample_forecast_witness :
    (forecastList (1/2) [3/5, 31/50]).length =
      ([3/5, 31/50] : List ℚ).length ∧
    (forecastList (1/2) [3/5, 31/50]).getD 1 none =
      some ((aList (1/2) [3/5, 31/50]).getD (1 - 1) 0 +
        (bList (1/2) [3/5, 31/50]).getD (1 - 1) 0) :=
  ⟨(in_sample_forecast (1/2) [3/5, 31/50] (by simp) (by norm_num)
      (by norm_num)).1,
   (in_sample_forecast (1/2) [3/5, 31/50] (by simp) (by norm_num)
      (by norm_num)).2.2 1 (by norm_num) (by simp)⟩

/-- C4: for every series of length n ≥ 2, alpha ∈ (0,1) and positive
horizon, the future table has exactly `hor` entries; its m-th value
(m = 1 .. hor) is a[n-1] + b[n-1]·m; the m-th period is
last_observed + m in continuation mode (deploy2.py) and start + (m-1) in
fixed-start mode (deploy1.py); and consecutive periods increase by exactly
one in both modes. -/
theorem future_table (alpha : ℚ) (y : List ℚ) (tahun : List ℤ) (start : ℤ)
    (hor : ℕ) (hn : 2 ≤ y.length) (h0 : 0 < alpha) (h1 : alpha < 1)
    (hh : 1 ≤ hor) :
    ((futureForecast alpha y hor).length = hor ∧
     (futureYearsCont tahun hor).length = hor ∧
     (futureYearsFixed start hor).length = hor) ∧
    (∀ m, 1 ≤ m → m ≤ hor →
      (futureForecast alpha y hor).getD (m - 1) 0 =
        (aList alpha y).getD (y.length - 1) 0 +
          (bList alpha y).getD (y.length - 1) 0 * (m : ℚ) ∧
      (futureYearsCont tahun hor).getD (m - 1) 0 =
        tahun.getD (tahun.length - 1) 0 + (m : ℤ) ∧
      (futureYearsFixed start hor).getD (m - 1) 0 =
        start + ((m : ℤ) - 1)) ∧
    ∀ j, j + 1 < hor →
      (futureYearsCont tahun hor).getD (j + 1) 0 =
        (futureYearsCont tahun hor).getD j 0 + 1 ∧
      (futureYearsFixed start hor).getD (j + 1) 0 =
        (futureYearsFixed start hor).getD j 0 + 1 := by
  refine ⟨⟨?_, ?_, ?_⟩, ?_, ?_⟩
  · simp [futureForecast]
  · simp [futureYearsCont]
  · simp [futureYearsFixed]
  · intro m hm1 hm2
    have hlt : m - 1 < hor := by omega
    have hm : 1 + (m - 1) = m := by omega
    refine ⟨?_, ?_, ?_⟩
    · rw [futureForecast, getD_map_range' _ _ _ _ _ hlt, hm]
    · rw [futureYearsCont, getD_map_range' _ _ _ _ _ hlt, hm]
    · rw [futureYearsFixed, getD_map_range _ _ _ _ hlt]
      have : ((m - 1 : ℕ) : ℤ) = (m : ℤ) - 1 := by omega
      rw [this]
  · intro j hj
    have hj1 : j < hor := by omega
    constructor
    · rw [futureYearsCont, getD_map_range' _ _ _ _ _ hj,
        getD_map_range' _ _ _ _ _ hj1]
      have : ((1 + (j + 1) : ℕ) : ℤ) = ((1 + j : ℕ) : ℤ) + 1 := by omega
      rw [this]
      ring
    · rw [futureYearsFixed, getD_map_range _ _ _ _ hj,
        getD_map_range _ _ _ _ hj1]
      have : ((j + 1 : ℕ) : ℤ) = (j : ℤ) + 1 := by omega
      rw [this]
      ring

/-- Witness for C4 at a concrete series, alpha = 0.5, the continuation
years of [2018, 2019], fixed start 2022, horizon 5, m = 2. -/
theorem future_table_witness :
    (futureForecast (1/2) [3/5, 31/50] 5).length = 5 ∧
    (futureForecast (1/2) [3/5, 31/50] 5).getD (2 - 1) 0 =
      (aList (1/2) [3/5, 31/50]).getD (([3/5, 31/50] : List ℚ).length - 1) 0 +
        (bList (1/2) [3/5, 31/50]).getD
          (([3/5, 31/50] : List ℚ).length - 1) 0 * ((2 : ℕ) : ℚ) ∧
    (futureYearsCont [2018, 2019] 5).getD (2 - 1) 0 =
      ([2018, 2019] : List ℤ).getD (([2018, 2019] : List ℤ).length - 1) 0 +
        ((2 : ℕ) : ℤ) ∧
    (futureYearsFixed 2022 5).getD (2 - 1) 0 = 2022 + (((2 : ℕ) : ℤ) - 1) :=
  ⟨(future_table (1/2) [3/5, 31/50] [2018, 2019] 2022 5 (by simp)
      (by norm_num) (by norm_num) (by norm_num)).1.1,
   (future_table (1/2) [3/5, 31/50] [2018, 2019] 2022 5 (by simp)
      (by norm_num) (by norm_num) (by norm_num)).2.1 2 (by norm_num)
      (by norm_num)⟩

lemma convex_between (alpha u v : ℚ) (h0 : 0 < alpha) (h1 : alpha < 1) :
    min u v ≤ alpha * u + (1 - alpha) * v ∧
    alpha * u + (1 - alpha) * v ≤ max u v := by
  rcases le_total u v with h | h
  · rw [min_eq_left h, max_eq_right h]
    constructor <;> nlinarith
  · rw [min_eq_right h, max_eq_left h]
    constructor <;> nlinarith

/-- C8: for every series of length n ≥ 2 and alpha ∈ (0,1), each smoothing
step is a convex combination: S1[t] lies between min(y[t], S1[t-1]) and
max(y[t], S1[t-1]), and S2[t] between min(S1[t], S2[t-1]) and
max(S1[t], S2[t-1]), for every t = 1 .. n-1. -/
theorem recurrence_bound (alpha : ℚ) (y : List ℚ) (hn : 2 ≤ y.length)
    (h0 : 0 < alpha) (h1 : alpha < 1) :
    ∀ t, 1 ≤ t → t ≤ y.length - 1 →
      (min (y.getD t 0) ((desSmooth alpha y).1.getD (t - 1) 0) ≤
          (desSmooth alpha y).1.getD t 0 ∧
        (desSmooth alpha y).1.getD t 0 ≤
          max (y.getD t 0) ((desSmooth alpha y).1.getD (t - 1) 0)) ∧
      (min ((desSmooth alpha y).1.getD t 0)
          ((desSmooth alpha y).2.getD (t - 1) 0) ≤
          (desSmooth alpha y).2.getD t 0 ∧
        (desSmooth alpha y).2.getD t 0 ≤
          max ((desSmooth alpha y).1.getD t 0)
            ((desSmooth alpha y).2.getD (t - 1) 0)) := by
  intro t ht1 ht2
  obtain ⟨j, rfl⟩ : ∃ j, t = j + 1 :=
    ⟨t - 1, (Nat.succ_pred_eq_of_pos ht1).symm⟩
  have hj : j ≤ y.length - 1 := by omega
  rw [Nat.add_sub_cancel, desSmooth_fst_getD _ _ _ ht2,
    desSmooth_snd_getD _ _ _ ht2, desSmooth_fst_getD _ _ _ hj,
    desSmooth_snd_getD _ _ _ hj]
  constructor
  · have e1 : s1Rec alpha y (j + 1) =
        alpha * y.getD (j + 1) 0 + (1 - alpha) * s1Rec alpha y j := rfl
    rw [e1]
    exact convex_between alpha (y.getD (j + 1) 0) (s1Rec alpha y j) h0 h1
  · have e2 : s2Rec alpha y (j + 1) =
        alpha * s1Rec alpha y (j + 1) + (1 - alpha) * s2Rec alpha y j := rfl
    rw [e2]
    exact convex_between alpha (s1Rec alpha y (j + 1)) (s2Rec alpha y j) h0 h1

/-- Witness for C8 at the worked series, alpha = 0.8, t = 1. -/
theorem recurrence_bound_witness :
    min (([3/5, 31/50, 59/100, 63/100] : List ℚ).getD 1 0)
        ((desSmooth (4/5) [3/5, 31/50, 59/100, 63/100]).1.getD (1 - 1) 0) ≤
      (desSmooth (4/5) [3/5, 31/50, 59/100, 63/100]).1.getD 1 0 ∧
    (desSmooth (4/5) [3/5, 31/50, 59/100, 63/100]).1.getD 1 0 ≤
      max (([3/5, 31/50, 59/100, 63/100] : List ℚ).getD 1 0)
        ((desSmooth (4/5) [3/5, 31/50, 59/100, 63/100]).1.getD (1 - 1) 0) :=
  (recurrence_bound (4/5) [3/5, 31/50, 59/100, 63/100] (by simp)
      (by norm_num) (by norm_num) 1 (by norm_num) (by simp)).1

/-- C9: for every series of length n ≥ 2 and alpha ∈ (0,1), the metrics are
non-negative — MAE ≥ 0, MSE ≥ 0, RMSE = sqrt(MSE) ≥ 0 — and RMSE squared
equals MSE exactly over the reals. -/
theorem metric_nonneg (alpha : ℚ) (y : List ℚ) (hn : 2 ≤ y.length)
    (h0 : 0 < alpha) (h1 : alpha < 1) :
    0 ≤ mae alpha y ∧ 0 ≤ mse alpha y ∧
    0 ≤ Real.sqrt ((mse alpha y : ℚ) : ℝ) ∧
    Real.sqrt ((mse alpha y : ℚ) : ℝ) ^ 2 = ((mse alpha y : ℚ) : ℝ) := by
  have hmae : 0 ≤ mae alpha y := by
    apply div_nonneg _ (Nat.cast_nonneg _)
    apply List.sum_nonneg
    intro x hx
    obtain ⟨e, _, rfl⟩ := List.mem_map.mp hx
    exact abs_nonneg e
  have hmse : 0 ≤ mse alpha y := by
    apply div_nonneg _ (Nat.cast_nonneg _)
    apply List.sum_nonneg
    intro x hx
    obtain ⟨e, _, rfl⟩ := List.mem_map.mp hx
    exact sq_nonneg e
  have hmser : (0 : ℝ) ≤ ((mse alpha y : ℚ) : ℝ) := by exact_mod_cast hmse
  exact ⟨hmae, hmse, Real.sqrt_nonneg _, Real.sq_sqrt hmser⟩

/-- Witness for C9 at the worked series, alpha = 0.8. -/
theorem metric_nonneg_witness :
    0 ≤ mae (4/5) [3/5, 31/50, 59/100, 63/100] ∧
    0 ≤ mse (4/5) [3/5, 31/50, 59/100, 63/100] ∧
    Real.sqrt ((mse (4/5) [3/5, 31/50, 59/100, 63/100] : ℚ) : ℝ) ^ 2 =
      ((mse (4/5) [3/5, 31/50, 59/100, 63/100] : ℚ) : ℝ) :=
  ⟨(metric_nonneg (4/5) [3/5, 31/50, 59/100, 63/100] (by simp) (by norm_num)
      (by norm_num)).1,
   (metric_nonneg (4/5) [3/5, 31/50, 59/100, 63/100] (by simp) (by norm_num)
      (by norm_num)).2.1,
   (metric_nonneg (4/5) [3/5, 31/50, 59/100, 63/100] (by simp) (by norm_num)
      (by norm_num)).2.2.2⟩

/-- C10: for every series of length n ≥ 2 and alpha ∈ (0,1), the first
defined in-sample forecast equals the first observation, independently of
alpha: a[0] = y[0], b[0] = 0, and forecast[1] = y[0]. -/
theorem first_forecast (alpha : ℚ) (y : List ℚ) (hn : 2 ≤ y.length)
    (h0 : 0 < alpha) (h1 : alpha < 1) :
    (aList alpha y).getD 0 0 = y.getD 0 0 ∧
    (bList alpha y).getD 0 0 = 0 ∧
    (forecastList alpha y).getD 1 none = some (y.getD 0 0) := by
  have h0n : (0 : ℕ) ≤ y.length - 1 := Nat.zero_le _
  have h0l : 0 < y.length := by omega
  have ha : (aList alpha y).getD 0 0 = y.getD 0 0 := by
    rw [aList_getD _ _ _ h0l, desSmooth_fst_getD _ _ _ h0n,
      desSmooth_snd_getD _ _ _ h0n]
    show 2 * y.getD 0 0 - y.getD 0 0 = y.getD 0 0
    ring
  have hb : (bList alpha y).getD 0 0 = 0 := by
    rw [bList_getD _ _ _ h0l, desSmooth_fst_getD _ _ _ h0n,
      desSmooth_snd_getD _ _ _ h0n]
    show (alpha / (1 - alpha)) * (y.getD 0 0 - y.getD 0 0) = 0
    ring
  refine ⟨ha, hb, ?_⟩
  rw [forecastList_getD _ _ _ (le_refl 1) (by omega),
    show (1 : ℕ) - 1 = 0 from rfl, ha, hb, add_zero]

/-- Witness for C10 at the worked series, alpha = 0.8. -/
theorem first_forecast_witness :
    (aList (4/5) [3/5, 31/50, 59/100, 63/100]).getD 0 0 =
      ([3/5, 31/50, 59/100, 63/100] : List ℚ).getD 0 0 ∧
    (bList (4/5) [3/5, 31/50, 59/100, 63/100]).getD 0 0 = 0 ∧
    (forecastList (4/5) [3/5, 31/50, 59/100, 63/100]).getD 1 none =
      some (([3/5, 31/50, 59/100, 63/100] : List ℚ).getD 0 0) :=
  first_forecast (4/5) [3/5, 31/50, 59/100, 63/100] (by simp) (by norm_num)
    (by norm_num)

/-- C5: on the worked series with values 0.60, 0.62, 0.59, 0.63 (the years
2018-2021 do not enter the smoothing) and alpha = 0.8, the computation
yields S1[1] = 0.616, S2[1] = 0.6128, a[1] = 0.6192, b[1] = 0.0128 and
forecast[2] = 0.632, each within 1e-9 (over ℚ the values are exact, so the
distances are 0). -/
theorem worked_example :
    |(desSmooth (4/5) [3/5, 31/50, 59/100, 63/100]).1.getD 1 0 - 77/125| <
      1/1000000000 ∧
    |(desSmooth (4/5) [3/5, 31/50, 59/100, 63/100]).2.getD 1 0 - 383/625| <
      1/1000000000 ∧
    |(aList (4/5) [3/5, 31/50, 59/100, 63/100]).getD 1 0 - 387/625| <
      1/1000000000 ∧
    |(bList (4/5) [3/5, 31/50, 59/100, 63/100]).getD 1 0 - 8/625| <
      1/1000000000 ∧
    ((forecastList (4/5) [3/5, 31/50, 59/100, 63/100]).getD 2 none).isSome =
      true ∧
    |((forecastList (4/5) [3/5, 31/50, 59/100, 63/100]).getD 2 none).getD 0 -
      79/125| < 1/1000000000 := by
  have hS1 : (desSmooth (4/5) [3/5, 31/50, 59/100, 63/100]).1.getD 1 0 =
      77/125 := by
    rw [desSmooth_fst_getD _ _ _ (by norm_num)]
    simp [s1Rec]
    norm_num
  have hS2 : (desSmooth (4/5) [3/5, 31/50, 59/100, 63/100]).2.getD 1 0 =
      383/625 := by
    rw [desSmooth_snd_getD _ _ _ (by norm_num)]
    simp [s1Rec, s2Rec]
    norm_num
  have hA : (aList (4/5) [3/5, 31/50, 59/100, 63/100]).getD 1 0 =
      387/625 := by
    rw [aList_getD _ _ _ (by norm_num), hS1, hS2]
    norm_num
  have hB : (bList (4/5) [3/5, 31/50, 59/100, 63/100]).getD 1 0 = 8/625 := by
    rw [bList_getD _ _ _ (by norm_num), hS1, hS2]
    norm_num
  have hF : (forecastList (4/5) [3/5, 31/50, 59/100, 63/100]).getD 2 none =
      some (79/125) := by
    rw [forecastList_getD _ _ _ (by norm_num) (by norm_num),
      show (2 : ℕ) - 1 = 1 from rfl, hA, hB]
    norm_num
  rw [hS1, hS2, hA, hB, hF]
  norm_num

/-- C6: the code evaluated at a failing input.  For the series with values
0.6, 0.0 and alpha = 0.8 the actual value used in the MAPE denominator is
exactly zero; the MAPE term list carries the non-finite marker and the MAPE
result is non-finite (`none`, the embedding of numpy's inf/nan), produced
without any DivisionByZero error: the source has no guard and numpy float
division by zero only emits a runtime warning. -/
theorem mape_zero_actual :
    mapeTerms (4/5) [3/5, 0] = [none] ∧ mape (4/5) [3/5, 0] = none := by
  decide

/-- C7 counterexample: no rejection happens before the smoothing.  With
alpha = 1.5 and with alpha = -0.1 — both outside (0,1) — the smoothing is
computed and yields numeric values (0.63 and 0.598 at index 1 of S1 for the
series 0.6, 0.62), and a length-1 series is smoothed to its seed lists with
no InsufficientData failure: the source contains no validation of alpha or
of the series length. -/
theorem no_alpha_rejection :
    (desSmooth (3/2) [3/5, 31/50]).1.getD 1 0 = 63/100 ∧
    (desSmooth (-1/10) [3/5, 31/50]).1.getD 1 0 = 299/500 ∧
    (desSmooth (4/5) [3/5]).1 = [3/5] ∧
    (desSmooth (4/5) [3/5]).2 = [3/5] := by
  refine ⟨?_, ?_, rfl, rfl⟩
  · rw [desSmooth_fst_getD _ _ _ (by norm_num)]
    simp [s1Rec]
    norm_num
  · rw [desSmooth_fst_getD _ _ _ (by norm_num)]
    simp [s1Rec]
    norm_num

/-- C7 amended: the code performs no parameter or length validation — the
smoothing recurrence is computed unconditionally for every alpha and every
series of length ≥ 2 — and the only protection is the UI slider, whose
range [0.1, 0.9] lies strictly inside (0,1). -/
theorem alpha_handling (alpha : ℚ) (hlo : 1/10 ≤ alpha)
    (hhi : alpha ≤ 9/10) :
    (0 < alpha ∧ alpha < 1) ∧
    ∀ c : ℚ, ∀ y : List ℚ, 2 ≤ y.length →
      (desSmooth c y).1.getD 1 0 = c * y.getD 1 0 + (1 - c) * y.getD 0 0 := by
  refine ⟨⟨by linarith, by linarith⟩, fun c y hy => ?_⟩
  rw [desSmooth_fst_getD _ _ _ (by omega)]
  exact s1Rec_one c y

/-- Witness for C7's amended statement at alpha = 0.8 on the slider and the
unvalidated alpha = 1.5 in the computation. -/
theorem alpha_handling_witness :
    ((0 : ℚ) < 4/5 ∧ (4/5 : ℚ) < 1) ∧
    (desSmooth (3/2) [3/5, 31/50]).1.getD 1 0 =
      (3/2) * ([3/5, 31/50] : List ℚ).getD 1 0 +
        (1 - 3/2) * ([3/5, 31/50] : List ℚ).getD 0 0 :=
  ⟨(alpha_handling (4/5) (by norm_num) (by norm_num)).1,
   (alpha_handling (4/5) (by norm_num) (by norm_num)).2 (3/2) [3/5, 31/50]
     (by simp)⟩

end DES
